import Mathlib

/-!
Shallow embedding of `src/circuit_breaker.py`: an in-memory key/value
storage with lazy expiration and a circuit breaker implemented as a
context manager (`__enter__` / `__exit__`).

Modelling choices:
* Time is `Nat` (seconds since an arbitrary epoch); `datetime.now()`
  becomes an explicit `now : Nat` argument.
* A stored dict entry `{"value": v, "expiration": e}` is `Entry`.
  The `expiration` dict key may be physically absent (entries created by
  `increment`'s `setdefault`), present with Python `None` (entries stored
  by `set` with a falsy timeout), or present with a datetime.  This is
  `Option (Option Nat)`: `none` = key absent, `some none` = `None`,
  `some (some t)` = datetime `t`.
* Python values that actually flow through this program are booleans and
  integers, modelled by `Val`.  Python truthiness is `Val.truthy`;
  `True + 1 = 2` (bool is an int in Python) is `Val.addOne`.
* `get` can raise `TypeError`: when the entry's expiration is Python
  `None`, the comparison `None < datetime.now()` raises.  Fallible reads
  return `Except PyErr Val`.
* Exception classes are `ExcClass`: a class identifier together with the
  identifiers of its strict ancestors, so that "strict subclass of"
  is expressible.  Python's tuple membership test `exc_type in
  self.exceptions` compares classes by identity, i.e. by equality here.
* The store is an association list updated by shadowing cons; lookup
  takes the first binding, so it behaves as the Python dict.
-/

/-- A Python value stored in the storage: this program stores booleans
(the `is_open` flag) and integers (the `num_errors` counter). -/
inductive Val where
  | vBool (b : Bool)
  | vInt (n : Int)
deriving DecidableEq, Repr

/-- Python truthiness of a stored value, as used by
`if self.storage.get(...)`. -/
def Val.truthy : Val → Bool
  | .vBool b => b
  | .vInt n => n != 0

/-- Python `v + 1` on a stored value (`True` counts as `1`, `False` as
`0`, since `bool` is an `int` in Python). -/
def Val.addOne : Val → Int
  | .vBool b => (if b then 1 else 0) + 1
  | .vInt n => n + 1

/-- One storage dict entry `{"value": ..., "expiration": ...}`.
`expiration = none` models the `"expiration"` dict key being absent;
`some none` models it holding Python `None`; `some (some t)` models a
concrete datetime `t`. -/
structure Entry where
  value : Val
  expiration : Option (Option Nat)
deriving DecidableEq, Repr

/-- The storage backing dict, as an association list (first binding
wins on lookup). -/
def Store := List (String × Entry)
deriving DecidableEq, Repr

/-- The empty storage dict. -/
def Store.empty : Store := []

/-- Dict lookup: first binding for the key, if any. -/
def Store.find : Store → String → Option Entry
  | [], _ => none
  | (k, e) :: rest, key => if k = key then some e else Store.find rest key

/-- Dict update `data[key] = entry`, modelled by shadowing cons. -/
def Store.put (σ : Store) (key : String) (e : Entry) : Store :=
  (key, e) :: σ

/-- Errors a Python call in this program can raise. -/
inductive PyErr where
  | typeError
  | circuitOpen (msg : String)
deriving DecidableEq, Repr

namespace InMemoryStorage

/-- `InMemoryStorage.get(key, default)`.  Returns the stored value, the
default if the key is missing or the entry expired strictly before
`now`, and raises `TypeError` when the stored expiration is Python
`None` (the source compares `None < datetime.now()`). -/
def get (σ : Store) (now : Nat) (key : String) (default : Val) :
    Except PyErr Val :=
  match Store.find σ key with
  | none => .ok default
  | some e =>
    match e.expiration with
    | none => .ok e.value
    | some none => .error .typeError
    | some (some t) => if t < now then .ok default else .ok e.value

/-- The expiration stored by `InMemoryStorage.set`:
`datetime.now() + timedelta(0, timeout) if timeout else None`.
A timeout of Python `None` or `0` is falsy, so it stores `None`. -/
def timeoutExpiration (now : Nat) : Option Nat → Option Nat
  | none => none
  | some t => if t = 0 then none else some (now + t)

/-- `InMemoryStorage.set(key, value, timeout)`: overwrites the entry;
the `"expiration"` dict key is always written (possibly with `None`). -/
def set (σ : Store) (now : Nat) (key : String) (value : Val)
    (timeout : Option Nat) : Store :=
  σ.put key ⟨value, some (timeoutExpiration now timeout)⟩

/-- `InMemoryStorage.increment(key)`: `setdefault` the entry to
`{"value": 0}` (no `"expiration"` dict key) when the key is absent, then
`+= 1` on the value and return the new value.  No expiration check. -/
def increment (σ : Store) (key : String) : Int × Store :=
  match Store.find σ key with
  | none => (1, σ.put key ⟨.vInt 1, none⟩)
  | some e =>
    let n := e.value.addOne
    (n, σ.put key ⟨.vInt n, e.expiration⟩)

end InMemoryStorage

/-- A Python exception class: an identifier plus the identifiers of its
strict ancestors (its proper superclasses). -/
structure ExcClass where
  cid : Nat
  ancestors : List Nat
deriving DecidableEq, Repr

/-- `c` is a strict subclass of `m`: `m` is a proper ancestor of `c`. -/
def ExcClass.strictSubclassOf (c m : ExcClass) : Prop :=
  m.cid ∈ c.ancestors ∧ c ≠ m

/-- The `CircuitBreaker` object: identity and policy.  The storage is
passed to each operation explicitly. -/
structure CircuitBreaker where
  _id : String
  errors_threshold : Int
  time_window : Int
  open_duration : Nat
  exceptions : List ExcClass
deriving DecidableEq, Repr

namespace CircuitBreaker

/-- `self.keys["is_open"]`, i.e. `f"{self._id}__is_open__"`. -/
def isOpenKey (cb : CircuitBreaker) : String :=
  cb._id ++ "__is_open__"

/-- `self.keys["num_errors"]`, i.e. `f"{self._id}__num_errors__"`. -/
def numErrorsKey (cb : CircuitBreaker) : String :=
  cb._id ++ "__num_errors__"

/-- `CircuitBreaker.__enter__`: read the `is_open` flag (default
`False`); if it is truthy, raise `CircuitOpenError` carrying the
breaker's id.  No write to storage. -/
def enter (cb : CircuitBreaker) (σ : Store) (now : Nat) :
    Except PyErr Unit :=
  match InMemoryStorage.get σ now cb.isOpenKey (.vBool false) with
  | .error e => .error e
  | .ok v =>
    if v.truthy then
      .error (.circuitOpen (cb._id ++ " - Circuit Breaker is opened"))
    else
      .ok ()

/-- `CircuitBreaker.__exit__` applied to the class of the raised
exception (`none` when the body succeeded).  Returns the suppression
flag together with the updated storage. -/
def exit (cb : CircuitBreaker) (σ : Store) (now : Nat)
    (excType : Option ExcClass) : Bool × Store :=
  match excType with
  | none => (false, σ)
  | some c =>
    if c ∈ cb.exceptions then
      let (n, σ') := InMemoryStorage.increment σ cb.numErrorsKey
      if cb.errors_threshold ≤ n then
        let σ'' := InMemoryStorage.set σ' now cb.isOpenKey (.vBool true)
          (some cb.open_duration)
        (true, InMemoryStorage.set σ'' now cb.numErrorsKey (.vInt 0) none)
      else
        (true, σ')
    else
      (false, σ)

end CircuitBreaker

/-- Outcome of one `with CircuitBreaker(...)` block as observed by the
caller. -/
inductive RunResult where
  /-- `__enter__` raised; the body never ran and `__exit__` never ran. -/
  | enterRaised (e : PyErr)
  /-- the block completed without propagating an exception. -/
  | ok
  /-- the body's exception was re-raised to the caller unchanged. -/
  | reraised (c : ExcClass)
deriving DecidableEq, Repr

/-- One guarded execution (`with` statement): `__enter__`, then the body
(whose outcome is `bodyExc`: `none` = success, `some c` = it raised an
exception of class `c`), then `__exit__`; a falsy `__exit__` result
re-raises the body's exception. -/
def runWith (cb : CircuitBreaker) (σ : Store) (now : Nat)
    (bodyExc : Option ExcClass) : RunResult × Store :=
  match cb.enter σ now with
  | .error e => (.enterRaised e, σ)
  | .ok _ =>
    let (suppress, σ') := cb.exit σ now bodyExc
    match bodyExc with
    | none => (.ok, σ')
    | some c => if suppress then (.ok, σ') else (.reraised c, σ')

/-- A sequence of guarded executions: each step is a timestamp together
with the body's outcome at that step.  Returns the callers' observations
in order and the final storage. -/
def runSeq (cb : CircuitBreaker) (σ : Store) :
    List (Nat × Option ExcClass) → List RunResult × Store
  | [] => ([], σ)
  | (now, bodyExc) :: rest =>
    let (r, σ') := runWith cb σ now bodyExc
    let (rs, σ'') := runSeq cb σ' rest
    (r :: rs, σ'')

/-! ### Helper definitions and lemmas -/

/-- The stored value at a key read as a Python integer (`False = 0`,
`True = 1`), `0` when the key is physically absent. -/
def Store.countAt (σ : Store) (key : String) : Int :=
  match σ.find key with
  | none => 0
  | some e =>
    match e.value with
    | .vBool b => if b then 1 else 0
    | .vInt n => n

/-- The `expiration` dict field of the entry at a key (`none` when the
key is physically absent). -/
def Store.expirationAt (σ : Store) (key : String) : Option (Option Nat) :=
  match σ.find key with
  | none => none
  | some e => e.expiration

theorem Store.find_put_self (σ : Store) (k : String) (e : Entry) :
    (σ.put k e).find k = some e := by
  simp [Store.put, Store.find]

theorem Store.find_put_of_ne (σ : Store) {k k' : String} (e : Entry)
    (h : k ≠ k') : (σ.put k e).find k' = σ.find k' := by
  simp [Store.put, Store.find, h]

theorem Val.addOne_eq (v : Val) :
    v.addOne = (match v with
      | .vBool b => if b then (1 : Int) else 0
      | .vInt n => n) + 1 := by
  cases v <;> simp [Val.addOne]

/-- `increment` returns the previous integer reading plus one. -/
theorem InMemoryStorage.increment_fst (σ : Store) (k : String) :
    (InMemoryStorage.increment σ k).1 = σ.countAt k + 1 := by
  unfold InMemoryStorage.increment Store.countAt
  cases h : σ.find k with
  | none => simp
  | some e => simp [Val.addOne_eq]

/-- `increment` writes the incremented integer at the key, preserving
the entry's expiration field. -/
theorem InMemoryStorage.increment_snd_find (σ : Store) (k : String) :
    (InMemoryStorage.increment σ k).2.find k =
      some ⟨.vInt (σ.countAt k + 1), σ.expirationAt k⟩ := by
  unfold InMemoryStorage.increment Store.countAt Store.expirationAt
  cases h : σ.find k with
  | none => simp [Store.find_put_self]
  | some e => simp [Store.find_put_self, Val.addOne_eq]

/-- `increment` touches no other key. -/
theorem InMemoryStorage.increment_snd_find_ne (σ : Store) {k k' : String}
    (h : k ≠ k') :
    (InMemoryStorage.increment σ k).2.find k' = σ.find k' := by
  unfold InMemoryStorage.increment
  cases hf : σ.find k with
  | none => simpa using Store.find_put_of_ne σ _ h
  | some e => simpa using Store.find_put_of_ne σ _ h

/-- The two storage keys a breaker derives from its id are distinct. -/
theorem CircuitBreaker.keys_ne (cb : CircuitBreaker) :
    cb.isOpenKey ≠ cb.numErrorsKey := by
  intro h
  have hlen := congrArg String.length h
  simp [CircuitBreaker.isOpenKey, CircuitBreaker.numErrorsKey] at hlen
  exact absurd hlen (by decide)

theorem InMemoryStorage.set_find_self (σ : Store) (now : Nat) (k : String)
    (v : Val) (timeout : Option Nat) :
    (InMemoryStorage.set σ now k v timeout).find k =
      some ⟨v, some (InMemoryStorage.timeoutExpiration now timeout)⟩ :=
  Store.find_put_self σ k _

theorem InMemoryStorage.set_find_ne (σ : Store) (now : Nat) {k k' : String}
    (v : Val) (timeout : Option Nat) (h : k ≠ k') :
    (InMemoryStorage.set σ now k v timeout).find k' = σ.find k' :=
  Store.find_put_of_ne σ _ h

/-- Unfolding of `__exit__` on a counted failure. -/
theorem CircuitBreaker.exit_counted (cb : CircuitBreaker) (σ : Store)
    (now : Nat) (c : ExcClass) (hc : c ∈ cb.exceptions) :
    cb.exit σ now (some c) =
      if cb.errors_threshold ≤ (InMemoryStorage.increment σ cb.numErrorsKey).1
      then
        (true, InMemoryStorage.set
          (InMemoryStorage.set (InMemoryStorage.increment σ cb.numErrorsKey).2
            now cb.isOpenKey (.vBool true) (some cb.open_duration))
          now cb.numErrorsKey (.vInt 0) none)
      else (true, (InMemoryStorage.increment σ cb.numErrorsKey).2) := by
  rcases hI : InMemoryStorage.increment σ cb.numErrorsKey with ⟨n, σ'⟩
  unfold CircuitBreaker.exit
  rw [hI]
  simp [hc]

/-- Unfolding of `__exit__` on an uncounted failure. -/
theorem CircuitBreaker.exit_uncounted (cb : CircuitBreaker) (σ : Store)
    (now : Nat) (c : ExcClass) (hc : c ∉ cb.exceptions) :
    cb.exit σ now (some c) = (false, σ) := by
  unfold CircuitBreaker.exit
  simp [hc]

/-- C1: for every breaker with `errors_threshold` T > 0, a counted
failure at Exit increments `num_errors` by 1; if the post-increment
value is ≥ T, the same Exit sets `is_open` to true via `set` with
timeout `open_duration` and resets `num_errors` to 0; if the
post-increment value is < T, `is_open` is not written and `num_errors`
holds the incremented value. -/
theorem C1_counted_failure_accounting (cb : CircuitBreaker) (σ : Store)
    (now : Nat) (c : ExcClass) (_hT : 0 < cb.errors_threshold)
    (hc : c ∈ cb.exceptions) :
    (cb.errors_threshold ≤ σ.countAt cb.numErrorsKey + 1 →
      (cb.exit σ now (some c)).2.find cb.isOpenKey =
        some ⟨.vBool true,
          some (InMemoryStorage.timeoutExpiration now
            (some cb.open_duration))⟩ ∧
      (cb.exit σ now (some c)).2.find cb.numErrorsKey =
        some ⟨.vInt 0, some none⟩) ∧
    (σ.countAt cb.numErrorsKey + 1 < cb.errors_threshold →
      (cb.exit σ now (some c)).2.find cb.isOpenKey = σ.find cb.isOpenKey ∧
      (cb.exit σ now (some c)).2.find cb.numErrorsKey =
        some ⟨.vInt (σ.countAt cb.numErrorsKey + 1),
          σ.expirationAt cb.numErrorsKey⟩) := by
  rw [CircuitBreaker.exit_counted cb σ now c hc,
    InMemoryStorage.increment_fst]
  constructor
  · intro hge
    rw [if_pos hge]
    constructor
    · rw [InMemoryStorage.set_find_ne _ _ _ _
        (Ne.symm cb.keys_ne), InMemoryStorage.set_find_self]
    · rw [InMemoryStorage.set_find_self]
      simp [InMemoryStorage.timeoutExpiration]
  · intro hlt
    rw [if_neg (not_le.mpr hlt)]
    exact ⟨InMemoryStorage.increment_snd_find_ne σ cb.keys_ne.symm ▸
        InMemoryStorage.increment_snd_find_ne σ
          (fun h => cb.keys_ne h.symm),
      InMemoryStorage.increment_snd_find σ cb.numErrorsKey⟩

/-- Witness for C1 at a concrete breaker, empty storage and one counted
failure. -/
theorem C1_counted_failure_accounting_witness :
    ((⟨"foo", 2, 20, 5, [⟨0, []⟩]⟩ : CircuitBreaker).errors_threshold ≤
        Store.empty.countAt
          (⟨"foo", 2, 20, 5, [⟨0, []⟩]⟩ : CircuitBreaker).numErrorsKey + 1 →
      ((⟨"foo", 2, 20, 5, [⟨0, []⟩]⟩ : CircuitBreaker).exit Store.empty 0
          (some ⟨0, []⟩)).2.find
          (⟨"foo", 2, 20, 5, [⟨0, []⟩]⟩ : CircuitBreaker).isOpenKey =
        some ⟨.vBool true,
          some (InMemoryStorage.timeoutExpiration 0 (some 5))⟩ ∧
      ((⟨"foo", 2, 20, 5, [⟨0, []⟩]⟩ : CircuitBreaker).exit Store.empty 0
          (some ⟨0, []⟩)).2.find
          (⟨"foo", 2, 20, 5, [⟨0, []⟩]⟩ : CircuitBreaker).numErrorsKey =
        some ⟨.vInt 0, some none⟩) ∧
    (Store.empty.countAt
        (⟨"foo", 2, 20, 5, [⟨0, []⟩]⟩ : CircuitBreaker).numErrorsKey + 1 <
        (⟨"foo", 2, 20, 5, [⟨0, []⟩]⟩ : CircuitBreaker).errors_threshold →
      ((⟨"foo", 2, 20, 5, [⟨0, []⟩]⟩ : CircuitBreaker).exit Store.empty 0
          (some ⟨0, []⟩)).2.find
          (⟨"foo", 2, 20, 5, [⟨0, []⟩]⟩ : CircuitBreaker).isOpenKey =
        Store.empty.find
          (⟨"foo", 2, 20, 5, [⟨0, []⟩]⟩ : CircuitBreaker).isOpenKey ∧
      ((⟨"foo", 2, 20, 5, [⟨0, []⟩]⟩ : CircuitBreaker).exit Store.empty 0
          (some ⟨0, []⟩)).2.find
          (⟨"foo", 2, 20, 5, [⟨0, []⟩]⟩ : CircuitBreaker).numErrorsKey =
        some ⟨.vInt (Store.empty.countAt
            (⟨"foo", 2, 20, 5, [⟨0, []⟩]⟩ : CircuitBreaker).numErrorsKey + 1),
          Store.empty.expirationAt
            (⟨"foo", 2, 20, 5, [⟨0, []⟩]⟩ : CircuitBreaker).numErrorsKey⟩) :=
  C1_counted_failure_accounting ⟨"foo", 2, 20, 5, [⟨0, []⟩]⟩ Store.empty 0
    ⟨0, []⟩ (by decide) (by decide)

/-- A sample counted exception class, used by concrete witnesses. -/
def demoExc : ExcClass := ⟨0, []⟩

/-- A sample breaker (id `"foo"`, threshold 2, time window 20, open
duration 5, one counted class), used by concrete witnesses. -/
def demoCb : CircuitBreaker := ⟨"foo", 2, 20, 5, [demoExc]⟩

/-- Unfolding of `__enter__` when the `is_open` read returns a value. -/
theorem CircuitBreaker.enter_of_get (cb : CircuitBreaker) (σ : Store)
    (now : Nat) (v : Val)
    (hv : InMemoryStorage.get σ now cb.isOpenKey (.vBool false) = .ok v) :
    cb.enter σ now =
      if v.truthy then
        .error (.circuitOpen (cb._id ++ " - Circuit Breaker is opened"))
      else .ok () := by
  unfold CircuitBreaker.enter
  rw [hv]

/-- C2: whenever the `is_open` key reads truthy at Enter, the whole
guarded execution raises `CircuitOpenError` carrying the breaker's id,
leaves the storage untouched, and its outcome does not depend on the
body at all (the wrapped operation is never invoked); whenever it reads
falsy, Enter succeeds and raises nothing. -/
theorem C2_enter_is_read_only_gate (cb : CircuitBreaker) (σ : Store)
    (now : Nat) (v : Val)
    (hv : InMemoryStorage.get σ now cb.isOpenKey (.vBool false) = .ok v) :
    (v.truthy = true →
      ∀ bodyExc : Option ExcClass,
        runWith cb σ now bodyExc =
          (.enterRaised
            (.circuitOpen (cb._id ++ " - Circuit Breaker is opened")), σ)) ∧
    (v.truthy = false → cb.enter σ now = .ok ()) := by
  have he := cb.enter_of_get σ now v hv
  constructor
  · intro ht bodyExc
    unfold runWith
    rw [he, ht]
    simp
  · intro hf
    rw [he, hf]
    simp

/-- Witness for C2: a concrete store holding an unexpired `is_open`
flag, read at time 3. -/
theorem C2_enter_is_read_only_gate_witness :
    (Val.truthy (.vBool true) = true →
      ∀ bodyExc : Option ExcClass,
        runWith demoCb
          [(demoCb.isOpenKey, ⟨.vBool true, some (some 9)⟩)] 3 bodyExc =
          (.enterRaised (.circuitOpen
            (demoCb._id ++ " - Circuit Breaker is opened")),
            [(demoCb.isOpenKey, ⟨.vBool true, some (some 9)⟩)])) ∧
    (Val.truthy (.vBool true) = false →
      demoCb.enter [(demoCb.isOpenKey, ⟨.vBool true, some (some 9)⟩)] 3 =
        .ok ()) :=
  C2_enter_is_read_only_gate demoCb
    [(demoCb.isOpenKey, ⟨.vBool true, some (some 9)⟩)] 3 (.vBool true)
    (by simp [InMemoryStorage.get, Store.find])

/-- C6: on success and on an uncounted failure kind, Exit makes no
accounting change (the storage is returned untouched, so neither
`num_errors` nor `is_open` is written), and an uncounted failure is
re-raised to the caller unchanged. -/
theorem C6_uncounted_failures_pass_through (cb : CircuitBreaker)
    (σ : Store) (now : Nat) (c : ExcClass) (hc : c ∉ cb.exceptions) :
    cb.exit σ now none = (false, σ) ∧
    cb.exit σ now (some c) = (false, σ) ∧
    (cb.enter σ now = .ok () →
      runWith cb σ now (some c) = (.reraised c, σ)) := by
  have hu := cb.exit_uncounted σ now c hc
  refine ⟨rfl, hu, ?_⟩
  intro he
  unfold runWith
  rw [he]
  simp [hu]

/-- Witness for C6: the demo breaker, empty storage, an exception class
outside `counted_failures`. -/
theorem C6_uncounted_failures_pass_through_witness :
    demoCb.exit Store.empty 0 none = (false, Store.empty) ∧
    demoCb.exit Store.empty 0 (some ⟨1, []⟩) = (false, Store.empty) ∧
    (demoCb.enter Store.empty 0 = .ok () →
      runWith demoCb Store.empty 0 (some ⟨1, []⟩) =
        (.reraised ⟨1, []⟩, Store.empty)) :=
  C6_uncounted_failures_pass_through demoCb Store.empty 0 ⟨1, []⟩
    (by decide)

/-- C7: a counted failure is suppressed at Exit (`__exit__` returns
`True`), so the caller observes a normal completion whether or not the
breaker tripped. -/
theorem C7_counted_failure_suppressed (cb : CircuitBreaker) (σ : Store)
    (now : Nat) (c : ExcClass) (hc : c ∈ cb.exceptions) :
    (cb.exit σ now (some c)).1 = true ∧
    (cb.enter σ now = .ok () →
      (runWith cb σ now (some c)).1 = RunResult.ok) := by
  have h1 : (cb.exit σ now (some c)).1 = true := by
    rw [CircuitBreaker.exit_counted cb σ now c hc]
    split <;> rfl
  refine ⟨h1, ?_⟩
  intro he
  unfold runWith
  rw [he]
  rcases hE : cb.exit σ now (some c) with ⟨sup, σ'⟩
  rw [hE] at h1
  simp at h1
  simp [hE, h1]

/-- Witness for C7: the demo breaker, empty storage, its counted
exception class. -/
theorem C7_counted_failure_suppressed_witness :
    (demoCb.exit Store.empty 0 (some demoExc)).1 = true ∧
    (demoCb.enter Store.empty 0 = .ok () →
      (runWith demoCb Store.empty 0 (some demoExc)).1 = RunResult.ok) :=
  C7_counted_failure_suppressed demoCb Store.empty 0 demoExc (by decide)

/-- C10: classification at Exit is by exact class membership in
`counted_failures`: an exception whose class is a strict subclass of a
member, but is not itself a member, is treated as uncounted — storage is
unchanged (no increment) and the failure is re-raised to the caller. -/
theorem C10_strict_subclass_not_counted (cb : CircuitBreaker) (σ : Store)
    (now : Nat) (c m : ExcClass) (_hm : m ∈ cb.exceptions)
    (_hsub : c.strictSubclassOf m) (hc : c ∉ cb.exceptions) :
    cb.exit σ now (some c) = (false, σ) ∧
    (cb.enter σ now = .ok () →
      runWith cb σ now (some c) = (.reraised c, σ)) := by
  have hu := cb.exit_uncounted σ now c hc
  refine ⟨hu, ?_⟩
  intro he
  unfold runWith
  rw [he]
  simp [hu]

/-- Witness for C10: class `⟨1, [0]⟩` is a strict subclass of the demo
breaker's counted class `⟨0, []⟩` but is not itself a member. -/
theorem C10_strict_subclass_not_counted_witness :
    demoCb.exit Store.empty 0 (some ⟨1, [0]⟩) = (false, Store.empty) ∧
    (demoCb.enter Store.empty 0 = .ok () →
      runWith demoCb Store.empty 0 (some ⟨1, [0]⟩) =
        (.reraised ⟨1, [0]⟩, Store.empty)) :=
  C10_strict_subclass_not_counted demoCb Store.empty 0 ⟨1, [0]⟩ demoExc
    (by decide) (by unfold ExcClass.strictSubclassOf; exact ⟨by decide, by decide⟩)
    (by decide)

/-- Counterexample for C5: the entry at `"k"` expired at time 0; read at
time 10, `get` treats it as absent, yet `increment` continues from the
stale stored value 5 and returns 6, not 1. -/
theorem C5_counterexample_increment_ignores_expiration :
    InMemoryStorage.get [("k", ⟨.vInt 5, some (some 0)⟩)] 10 "k"
      (.vInt 0) = .ok (.vInt 0) ∧
    (InMemoryStorage.increment [("k", ⟨.vInt 5, some (some 0)⟩)] "k").1
      = 6 ∧
    (InMemoryStorage.increment [("k", ⟨.vInt 5, some (some 0)⟩)] "k").1
      ≠ 1 := by
  refine ⟨by rfl, by rfl, by decide⟩

/-- C5 (amended): `get` honors lazy expiration — on a key whose entry
has an expiration strictly in the past it returns the default, and it
returns the default (never raising) on a missing key; `increment`,
however, ignores expiration entirely: it initializes to 0 only when the
key is physically absent (returning 1) and otherwise increments the
stale stored value, returning its integer reading plus one. -/
theorem C5_lazy_expiration_get_but_not_increment (σ : Store) (now : Nat)
    (k : String) (d : Val) (e : Entry) (t : Nat) (hf : σ.find k = some e)
    (hexp : e.expiration = some (some t)) (ht : t < now) :
    InMemoryStorage.get σ now k d = .ok d ∧
    (InMemoryStorage.increment σ k).1 = e.value.addOne ∧
    (∀ (σ' : Store) (k' : String), σ'.find k' = none →
      InMemoryStorage.get σ' now k' d = .ok d ∧
      (InMemoryStorage.increment σ' k').1 = 1) := by
  refine ⟨?_, ?_, ?_⟩
  · unfold InMemoryStorage.get
    rw [hf]
    simp [hexp, ht]
  · unfold InMemoryStorage.increment
    rw [hf]
  · intro σ' k' hnone
    constructor
    · unfold InMemoryStorage.get
      rw [hnone]
    · unfold InMemoryStorage.increment
      rw [hnone]

/-- Witness for C5 (amended) at the concrete expired entry of the
counterexample. -/
theorem C5_lazy_expiration_get_but_not_increment_witness :
    InMemoryStorage.get [("k", ⟨.vInt 5, some (some 0)⟩)] 10 "k"
      (.vBool false) = .ok (.vBool false) ∧
    (InMemoryStorage.increment [("k", ⟨.vInt 5, some (some 0)⟩)] "k").1
      = Val.addOne (.vInt 5) ∧
    (∀ (σ' : Store) (k' : String), σ'.find k' = none →
      InMemoryStorage.get σ' 10 k' (.vBool false) = .ok (.vBool false) ∧
      (InMemoryStorage.increment σ' k').1 = 1) :=
  C5_lazy_expiration_get_but_not_increment
    [("k", ⟨.vInt 5, some (some 0)⟩)] 10 "k" (.vBool false)
    ⟨.vInt 5, some (some 0)⟩ 0 (by decide) (by decide) (by decide)

/-- Counterexample for C4: with `open_duration = 0` the trip stores the
`is_open` flag with Python `None` expiration (`if timeout` is falsy at
0), so long after the trip the flag does not read as false — `get`
raises `TypeError` — and the next Enter raises `TypeError` instead of
succeeding. -/
theorem C4_counterexample_zero_open_duration :
    ((⟨"foo", 1, 20, 0, [demoExc]⟩ : CircuitBreaker).exit Store.empty 0
        (some demoExc)).2.find
        (⟨"foo", 1, 20, 0, [demoExc]⟩ : CircuitBreaker).isOpenKey =
      some ⟨.vBool true, some none⟩ ∧
    InMemoryStorage.get
      ((⟨"foo", 1, 20, 0, [demoExc]⟩ : CircuitBreaker).exit Store.empty 0
        (some demoExc)).2 100
      (⟨"foo", 1, 20, 0, [demoExc]⟩ : CircuitBreaker).isOpenKey
      (.vBool false) = .error .typeError ∧
    (⟨"foo", 1, 20, 0, [demoExc]⟩ : CircuitBreaker).enter
      ((⟨"foo", 1, 20, 0, [demoExc]⟩ : CircuitBreaker).exit Store.empty 0
        (some demoExc)).2 100 ≠ .ok () := by
  refine ⟨by decide, by rfl, ?_⟩
  have h : (⟨"foo", 1, 20, 0, [demoExc]⟩ : CircuitBreaker).enter
      ((⟨"foo", 1, 20, 0, [demoExc]⟩ : CircuitBreaker).exit Store.empty 0
        (some demoExc)).2 100 = .error .typeError := by rfl
  rw [h]
  simp

/-- C4 (amended): for `open_duration` D > 0, once a counted failure at
Exit trips the breaker at time t₀, at every time strictly later than
t₀ + D the `is_open` key reads as false and Enter succeeds, regardless
of the prior error count. -/
theorem C4_open_flag_expires (cb : CircuitBreaker) (σ : Store)
    (t₀ now : Nat) (c : ExcClass) (hD : 0 < cb.open_duration)
    (hc : c ∈ cb.exceptions)
    (htrip : cb.errors_threshold ≤
      (InMemoryStorage.increment σ cb.numErrorsKey).1)
    (helapsed : t₀ + cb.open_duration < now) :
    InMemoryStorage.get (cb.exit σ t₀ (some c)).2 now cb.isOpenKey
      (.vBool false) = .ok (.vBool false) ∧
    cb.enter (cb.exit σ t₀ (some c)).2 now = .ok () := by
  have hex := cb.exit_counted σ t₀ c hc
  rw [if_pos htrip] at hex
  have hfind : (cb.exit σ t₀ (some c)).2.find cb.isOpenKey =
      some ⟨.vBool true, some (some (t₀ + cb.open_duration))⟩ := by
    rw [hex]
    simp only []
    rw [InMemoryStorage.set_find_ne _ _ _ _ (Ne.symm cb.keys_ne),
      InMemoryStorage.set_find_self]
    simp [InMemoryStorage.timeoutExpiration, Nat.pos_iff_ne_zero.mp hD]
  have hget : InMemoryStorage.get (cb.exit σ t₀ (some c)).2 now
      cb.isOpenKey (.vBool false) = .ok (.vBool false) := by
    unfold InMemoryStorage.get
    rw [hfind]
    simp [helapsed]
  refine ⟨hget, ?_⟩
  rw [cb.enter_of_get _ now _ hget]
  simp [Val.truthy]

/-- Witness for C4 (amended): the demo breaker (threshold 2, open
duration 5) trips at time 0 on its second counted failure; at time 6
the flag reads false and Enter succeeds. -/
theorem C4_open_flag_expires_witness :
    InMemoryStorage.get
      (demoCb.exit [(demoCb.numErrorsKey, ⟨.vInt 1, none⟩)] 0
        (some demoExc)).2 6 demoCb.isOpenKey (.vBool false) =
      .ok (.vBool false) ∧
    demoCb.enter
      (demoCb.exit [(demoCb.numErrorsKey, ⟨.vInt 1, none⟩)] 0
        (some demoExc)).2 6 = .ok () :=
  C4_open_flag_expires demoCb [(demoCb.numErrorsKey, ⟨.vInt 1, none⟩)]
    0 6 demoExc (by decide) (by decide) (by decide) (by decide)

/-- A step whose body raised a counted failure kind. -/
def CountedStep (cb : CircuitBreaker) (s : Nat × Option ExcClass) : Prop :=
  ∃ c, s.2 = some c ∧ c ∈ cb.exceptions

theorem Store.countAt_eq_of_find_vInt (σ : Store) (k : String) (n : Int)
    (exp : Option (Option Nat)) (h : σ.find k = some ⟨.vInt n, exp⟩) :
    σ.countAt k = n := by
  unfold Store.countAt
  rw [h]

/-- While the open flag is absent and the failure count stays strictly
below the threshold, a sequence of counted failures keeps every guarded
execution observably successful and never writes the open flag. -/
theorem runSeq_stays_closed (cb : CircuitBreaker) :
    ∀ (steps : List (Nat × Option ExcClass)) (σ : Store),
      σ.find cb.isOpenKey = none →
      (∀ s ∈ steps, CountedStep cb s) →
      σ.countAt cb.numErrorsKey + (steps.length : Int) <
        cb.errors_threshold →
      (∀ r ∈ (runSeq cb σ steps).1, r = RunResult.ok) ∧
      (runSeq cb σ steps).2.find cb.isOpenKey = none := by
  intro steps
  induction steps with
  | nil =>
    intro σ hopen _ _
    exact ⟨by intro r hr; simp [runSeq] at hr, hopen⟩
  | cons s rest ih =>
    intro σ hopen hcount hbound
    obtain ⟨now, b⟩ := s
    obtain ⟨c, hb, hc⟩ := hcount (now, b) (List.mem_cons_self _ _)
    simp only [] at hb
    subst hb
    have hget : InMemoryStorage.get σ now cb.isOpenKey (.vBool false) =
        .ok (.vBool false) := by
      unfold InMemoryStorage.get
      rw [hopen]
    have henter : cb.enter σ now = .ok () := by
      rw [cb.enter_of_get σ now _ hget]
      simp [Val.truthy]
    have hnotrip : ¬ cb.errors_threshold ≤
        (InMemoryStorage.increment σ cb.numErrorsKey).1 := by
      rw [InMemoryStorage.increment_fst]
      simp only [List.length_cons] at hbound
      push_cast at hbound
      omega
    have hexit : cb.exit σ now (some c) =
        (true, (InMemoryStorage.increment σ cb.numErrorsKey).2) := by
      rw [cb.exit_counted σ now c hc, if_neg hnotrip]
    have hrw : runWith cb σ now (some c) =
        (.ok, (InMemoryStorage.increment σ cb.numErrorsKey).2) := by
      unfold runWith
      rw [henter]
      simp [hexit]
    have hopen1 : (InMemoryStorage.increment σ cb.numErrorsKey).2.find
        cb.isOpenKey = none := by
      rw [InMemoryStorage.increment_snd_find_ne σ
        (fun h => cb.keys_ne h.symm)]
      exact hopen
    have hcnt1 : (InMemoryStorage.increment σ cb.numErrorsKey).2.countAt
        cb.numErrorsKey = σ.countAt cb.numErrorsKey + 1 :=
      Store.countAt_eq_of_find_vInt _ _ _ _
        (InMemoryStorage.increment_snd_find σ cb.numErrorsKey)
    have hbound1 : (InMemoryStorage.increment σ cb.numErrorsKey).2.countAt
        cb.numErrorsKey + (rest.length : Int) < cb.errors_threshold := by
      rw [hcnt1]
      simp only [List.length_cons] at hbound
      push_cast at hbound ⊢
      omega
    obtain ⟨ihres, ihopen⟩ := ih (InMemoryStorage.increment σ
        cb.numErrorsKey).2 hopen1
      (fun s hs => hcount s (List.mem_cons_of_mem _ hs)) hbound1
    constructor
    · intro r hr
      unfold runSeq at hr
      rw [hrw] at hr
      simp only [List.mem_cons] at hr
      rcases hr with h | h
      · exact h
      · exact ihres r h
    · unfold runSeq
      rw [hrw]
      simpa using ihopen

/-- C3: starting from empty storage, for every sequence of N counted
failures with N strictly below the threshold, every guarded execution
completes normally (no `CircuitOpenError` at any Enter) and the
`is_open` key is never written: after every prefix of the sequence it is
still absent from storage. -/
theorem C3_below_threshold_stays_closed (cb : CircuitBreaker)
    (steps : List (Nat × Option ExcClass))
    (_hT : 0 < cb.errors_threshold)
    (hcount : ∀ s ∈ steps, CountedStep cb s)
    (hN : (steps.length : Int) < cb.errors_threshold) :
    (∀ r ∈ (runSeq cb Store.empty steps).1, r = RunResult.ok) ∧
    (∀ pre suf : List (Nat × Option ExcClass), steps = pre ++ suf →
      (runSeq cb Store.empty pre).2.find cb.isOpenKey = none) := by
  have hbase : (Store.empty : Store).countAt cb.numErrorsKey = 0 := rfl
  constructor
  · exact (runSeq_stays_closed cb steps Store.empty rfl hcount
      (by rw [hbase]; simpa using hN)).1
  · intro pre suf hps
    have hcount' : ∀ s ∈ pre, CountedStep cb s := fun s hs =>
      hcount s (hps ▸ List.mem_append_left _ hs)
    have hlen : (pre.length : Int) < cb.errors_threshold := by
      have hle : pre.length ≤ steps.length := by
        rw [hps, List.length_append]
        omega
      have := hN
      push_cast at this ⊢
      omega
    exact (runSeq_stays_closed cb pre Store.empty rfl hcount'
      (by rw [hbase]; simpa using hlen)).2

/-- Witness for C3: one counted failure against the demo breaker with
threshold 2. -/
theorem C3_below_threshold_stays_closed_witness :
    (∀ r ∈ (runSeq demoCb Store.empty [(0, some demoExc)]).1,
      r = RunResult.ok) ∧
    (∀ pre suf : List (Nat × Option ExcClass),
      [(0, some demoExc)] = pre ++ suf →
      (runSeq demoCb Store.empty pre).2.find demoCb.isOpenKey = none) :=
  C3_below_threshold_stays_closed demoCb [(0, some demoExc)] (by decide)
    (by
      intro s hs
      rw [List.mem_singleton] at hs
      subst hs
      exact ⟨demoExc, rfl, by decide⟩)
    (by decide)

/-- The concrete (datetime) expiration at a key, if any: `none` both
when the key or its `"expiration"` field is absent and when that field
holds Python `None`. -/
def Store.timedExpirationAt (σ : Store) (key : String) : Option Nat :=
  match σ.expirationAt key with
  | some (some t) => some t
  | _ => none

theorem Store.timedExpirationAt_congr (σ₁ σ₂ : Store) (k : String)
    (h : σ₁.expirationAt k = σ₂.expirationAt k) :
    σ₁.timedExpirationAt k = σ₂.timedExpirationAt k := by
  unfold Store.timedExpirationAt
  rw [h]

theorem InMemoryStorage.increment_expirationAt (σ : Store) (k : String) :
    ((InMemoryStorage.increment σ k).2).expirationAt k =
      σ.expirationAt k := by
  have h := InMemoryStorage.increment_snd_find σ k
  simp [Store.expirationAt, h]

/-- A single guarded execution never gives the `num_errors` key a
datetime expiration. -/
theorem runWith_keeps_num_untimed (cb : CircuitBreaker) (σ : Store)
    (now : Nat) (b : Option ExcClass)
    (h : σ.timedExpirationAt cb.numErrorsKey = none) :
    (runWith cb σ now b).2.timedExpirationAt cb.numErrorsKey = none := by
  unfold runWith
  cases he : cb.enter σ now with
  | error e => simpa using h
  | ok u =>
    cases b with
    | none =>
      simp only [CircuitBreaker.exit]
      simpa using h
    | some c =>
      by_cases hc : c ∈ cb.exceptions
      · have hex := cb.exit_counted σ now c hc
        by_cases hth : cb.errors_threshold ≤
            (InMemoryStorage.increment σ cb.numErrorsKey).1
        · rw [if_pos hth] at hex
          rw [hex]
          simp [Store.timedExpirationAt, Store.expirationAt,
            InMemoryStorage.set_find_self,
            InMemoryStorage.timeoutExpiration]
        · rw [if_neg hth] at hex
          rw [hex]
          simp only [if_true]
          rw [Store.timedExpirationAt_congr _ σ _
            (InMemoryStorage.increment_expirationAt σ cb.numErrorsKey)]
          exact h
      · rw [cb.exit_uncounted σ now c hc]
        simpa using h

/-- Over any sequence of guarded executions the `num_errors` key never
acquires a datetime expiration. -/
theorem runSeq_keeps_num_untimed (cb : CircuitBreaker)
    (steps : List (Nat × Option ExcClass)) :
    ∀ σ : Store, σ.timedExpirationAt cb.numErrorsKey = none →
      (runSeq cb σ steps).2.timedExpirationAt cb.numErrorsKey = none := by
  induction steps with
  | nil => intro σ h; exact h
  | cons s rest ih =>
    intro σ h
    obtain ⟨now, b⟩ := s
    rcases hw : runWith cb σ now b with ⟨r, σ'⟩
    have h' := runWith_keeps_num_untimed cb σ now b h
    rw [hw] at h'
    unfold runSeq
    rw [hw]
    simpa using ih σ' h'

/-- Changing only `time_window` changes nothing in one guarded
execution: the field is read by no operation. -/
theorem runWith_time_window_irrelevant (cb : CircuitBreaker) (tw : Int)
    (σ : Store) (now : Nat) (b : Option ExcClass) :
    runWith { cb with time_window := tw } σ now b =
      runWith cb σ now b := rfl

theorem runSeq_time_window_irrelevant (cb : CircuitBreaker) (tw : Int)
    (steps : List (Nat × Option ExcClass)) :
    ∀ σ : Store,
      runSeq { cb with time_window := tw } σ steps =
        runSeq cb σ steps := by
  induction steps with
  | nil => intro σ; rfl
  | cons s rest ih =>
    intro σ
    obtain ⟨now, b⟩ := s
    rcases hw : runWith cb σ now b with ⟨r, σ'⟩
    unfold runSeq
    rw [runWith_time_window_irrelevant, hw]
    simp only [ih σ']

/-- C8: the `time_window` parameter has no effect — two breakers
identical except for `time_window` produce identical results and
identical storage states on every sequence of guarded executions — and
starting from empty storage the `num_errors` counter is never given a
datetime expiration, so counted failures accumulate without a time
bound until a trip resets the counter. -/
theorem C8_time_window_has_no_effect (cb : CircuitBreaker) (tw : Int)
    (σ : Store) (steps : List (Nat × Option ExcClass)) :
    runSeq { cb with time_window := tw } σ steps = runSeq cb σ steps ∧
    (runSeq cb Store.empty steps).2.timedExpirationAt cb.numErrorsKey =
      none :=
  ⟨runSeq_time_window_irrelevant cb tw steps σ,
   runSeq_keeps_num_untimed cb steps Store.empty rfl⟩
